import Mathlib

/-!
Shallow embedding of the emulator core (memory devices, bus, device sync,
timer, debugger run loop, toy CPU executor, expression evaluator), translated
from the C++ sources, together with theorems settling the specification
claims.  Machine integers are modelled as Nat with explicit `% 2^w` where
overflow matters.
-/

/-- Error kinds, from include/emulator/cpu/cpu.h (enum CpuErrorType). -/
inductive CpuErrorType where
  | None
  | InvalidOp
  | AccessFault
  | DeviceFault
  | Halt
  deriving DecidableEq

/-- Access kinds, from include/emulator/cpu/cpu.h (enum MemAccessType). -/
inductive MemAccessType where
  | Read
  | Write
  | Fetch
  deriving DecidableEq

/-- Access descriptor, from include/emulator/cpu/cpu.h (struct MemAccess). -/
structure MemAccess where
  address : Nat := 0
  size : Nat := 0
  type : MemAccessType := MemAccessType.Read
  data : Nat := 0
  deriving DecidableEq

/-- Error record, from include/emulator/cpu/cpu.h (struct CpuErrorDetail). -/
structure CpuErrorDetail where
  type : CpuErrorType := CpuErrorType.None
  address : Nat := 0
  size : Nat := 0
  data : Nat := 0
  deriving DecidableEq

/-- Response record, from include/emulator/cpu/cpu.h (struct MemResponse). -/
structure MemResponse where
  success : Bool := true
  data : Nat := 0
  latencyCycles : Nat := 0
  error : CpuErrorDetail := {}
  deriving DecidableEq

/-! Memory device (ROM/RAM), from src/src/device/memory.cpp.  The byte
storage `std::vector<uint8_t>` is modelled as a `List Nat` of its bytes. -/

/-- Validity check from src/src/device/memory.cpp, anonymous-namespace
`isAccessValid`: size must be nonzero and at most `sizeof(uint64_t) = 8`,
the address must be inside storage and the remaining room at least size. -/
def isAccessValid (storage : List Nat) (access : MemAccess) : Bool :=
  if access.size = 0 ∨ access.size > 8 then false
  else if access.address ≥ storage.length then false
  else if access.size > storage.length - access.address then false
  else true

/-- Fault response from src/src/device/memory.cpp `makeFault`: failure with
`AccessFault` carrying the faulting address and size. -/
def makeFault (access : MemAccess) : MemResponse :=
  { success := false,
    error := { type := CpuErrorType.AccessFault,
               address := access.address,
               size := access.size } }

/-- Little-endian packing from src/src/device/memory.cpp `readValue`.  The
source loop runs `value |= storage[address + i] << (8 * i)` for
`i = 0 .. size-1`; peeling the final iteration gives this recursion, with the
very same association `((0 ||| t0) ||| t1) ||| ...` as the loop. -/
def readValue (storage : List Nat) (addr : Nat) : Nat → Nat
  | 0 => 0
  | s + 1 => readValue storage addr s ||| ((storage.getD (addr + s) 0) <<< (8 * s))

/-- Little-endian unpacking from src/src/device/memory.cpp `writeValue`.  The
source loop stores `value & 0xff` at `address + i` then shifts `value >>= 8`;
after `i` iterations the running value is `data >>> (8*i)`, so iteration `i`
stores `(data >>> (8*i)) % 256` (`& 0xff` is `% 256`), applied here in the
same ascending order. -/
def writeValue (storage : List Nat) (addr data : Nat) : Nat → List Nat
  | 0 => storage
  | s + 1 => (writeValue storage addr data s).set (addr + s) ((data >>> (8 * s)) % 256)

/-- State of a MemoryDevice: byte storage `mStorage` and the `mReadOnly`
flag, from src/src/device/memory.cpp. -/
structure MemoryDeviceState where
  storage : List Nat
  readOnly : Bool
  deriving DecidableEq

/-- MemoryDevice::handleRead from src/src/device/memory.cpp lines 80-88. -/
def MemoryDevice.handleRead (st : MemoryDeviceState) (access : MemAccess) : MemResponse :=
  if ¬ isAccessValid st.storage access then makeFault access
  else { success := true, data := readValue st.storage access.address access.size }

/-- MemoryDevice::handleWrite from src/src/device/memory.cpp lines 90-101;
returns the response together with the updated device state. -/
def MemoryDevice.handleWrite (st : MemoryDeviceState) (access : MemAccess) :
    MemResponse × MemoryDeviceState :=
  if ¬ isAccessValid st.storage access then (makeFault access, st)
  else if st.readOnly then (makeFault access, st)
  else ({ success := true },
        { st with storage := writeValue st.storage access.address access.data access.size })

lemma isAccessValid_iff (storage : List Nat) (a : MemAccess) :
    isAccessValid storage a = true ↔
      1 ≤ a.size ∧ a.size ≤ 8 ∧ a.address + a.size ≤ storage.length := by
  unfold isAccessValid
  split
  · simp only [Bool.false_eq_true, false_iff]
    omega
  · split
    · simp only [Bool.false_eq_true, false_iff]
      omega
    · split
      · simp only [Bool.false_eq_true, false_iff]
        omega
      · simp only [true_iff]
        omega

lemma writeValue_length (storage : List Nat) (addr data : Nat) (s : Nat) :
    (writeValue storage addr data s).length = storage.length := by
  induction s with
  | zero => rfl
  | succ s ih => simp [writeValue, List.length_set, ih]

lemma readValue_set_of_ge (storage : List Nat) (addr : Nat) (s : Nat) (j : Nat) (x : Nat)
    (h : addr + s ≤ j) :
    readValue (storage.set j x) addr s = readValue storage addr s := by
  induction s with
  | zero => rfl
  | succ s ih =>
    have hne : j ≠ addr + s := by omega
    simp only [readValue, List.getD_eq_getElem?_getD, List.getElem?_set_ne hne]
    rw [ih (by omega)]

lemma lor_shiftLeft_disjoint (a b k : Nat) (h : a < 2 ^ k) :
    a ||| (b <<< k) = a + b * 2 ^ k := by
  apply Nat.eq_of_testBit_eq
  intro j
  rw [Nat.add_comm a (b * 2 ^ k), Nat.mul_comm b (2 ^ k), Nat.testBit_lor,
    Nat.testBit_shiftLeft, Nat.testBit_mul_pow_two_add b h j]
  by_cases hj : j < k
  · simp [hj, Nat.not_le.mpr hj]
  · have hle : k ≤ j := Nat.le_of_not_lt hj
    have ha : a.testBit j = false :=
      Nat.testBit_lt_two_pow (Nat.lt_of_lt_of_le h (Nat.pow_le_pow_right (by omega) hle))
    simp [hj, hle, ha]

lemma readValue_writeValue (s : Nat) :
    ∀ (storage : List Nat) (addr data : Nat), addr + s ≤ storage.length →
      readValue (writeValue storage addr data s) addr s = data % 2 ^ (8 * s) := by
  induction s with
  | zero =>
    intro storage addr data _
    simp [readValue, Nat.mod_one]
  | succ s ih =>
    intro storage addr data h
    have hlen : addr + s < (writeValue storage addr data s).length := by
      rw [writeValue_length]; omega
    have hgetD : ((writeValue storage addr data s).set (addr + s)
        ((data >>> (8 * s)) % 256)).getD (addr + s) 0 = (data >>> (8 * s)) % 256 := by
      simp [List.getD_eq_getElem?_getD, List.getElem?_set_self hlen]
    have hset : readValue ((writeValue storage addr data s).set (addr + s)
        ((data >>> (8 * s)) % 256)) addr s = readValue (writeValue storage addr data s) addr s :=
      readValue_set_of_ge (writeValue storage addr data s) addr s (addr + s)
        ((data >>> (8 * s)) % 256) (Nat.le_refl _)
    have hih : readValue (writeValue storage addr data s) addr s = data % 2 ^ (8 * s) :=
      ih storage addr data (by omega)
    simp only [readValue, writeValue, hset, hgetD, hih]
    rw [lor_shiftLeft_disjoint _ _ _ (Nat.mod_lt _ (Nat.pos_pow_of_pos _ (by omega)))]
    have hpow : 2 ^ (8 * (s + 1)) = 2 ^ (8 * s) * 256 := by
      rw [Nat.mul_succ, Nat.pow_add]
    rw [hpow, Nat.mod_mul, Nat.shiftRight_eq_div_pow]
    ring

/-- C4 (amended): a memory-device access succeeds exactly when
`1 ≤ size ≤ 8` and `address + size ≤ storage_size` (writes additionally
require the device not read-only); every failing access returns `AccessFault`
carrying the faulting address and size.  The source accepts every size in
`1..8`, not only `{1,2,4,8}`. -/
theorem memory_access_validity (st : MemoryDeviceState) (a : MemAccess) :
    ((MemoryDevice.handleRead st a).success = true ↔
      1 ≤ a.size ∧ a.size ≤ 8 ∧ a.address + a.size ≤ st.storage.length) ∧
    ((MemoryDevice.handleRead st a).success = false →
      MemoryDevice.handleRead st a = makeFault a) ∧
    ((MemoryDevice.handleWrite st a).1.success = true ↔
      (1 ≤ a.size ∧ a.size ≤ 8 ∧ a.address + a.size ≤ st.storage.length) ∧
        st.readOnly = false) ∧
    ((MemoryDevice.handleWrite st a).1.success = false →
      (MemoryDevice.handleWrite st a).1 = makeFault a) := by
  unfold MemoryDevice.handleRead MemoryDevice.handleWrite
  by_cases hv : isAccessValid st.storage a = true
  · have hc := (isAccessValid_iff st.storage a).mp hv
    refine ⟨?_, ?_, ?_, ?_⟩
    · simp [hv, hc]
    · simp [hv]
    · cases hro : st.readOnly <;> simp [hv, hro, hc, makeFault]
    · cases hro : st.readOnly <;> simp [hv, hro, makeFault]
  · have hc : ¬ (1 ≤ a.size ∧ a.size ≤ 8 ∧ a.address + a.size ≤ st.storage.length) := by
      intro hcc
      exact hv ((isAccessValid_iff st.storage a).mpr hcc)
    refine ⟨?_, ?_, ?_, ?_⟩
    · rw [if_pos hv]
      simp only [makeFault, Bool.false_eq_true, false_iff]
      exact hc
    · simp [hv]
    · rw [if_pos hv]
      simp only [makeFault, Bool.false_eq_true, false_iff]
      intro hcc
      exact hc hcc.1
    · simp [hv]

/-- C4 counterexample: on an 8-byte RAM device, a read of size 3 at address 0
succeeds, although the claim demands that every access of size 3 faults
(3 is not one of the sizes 1, 2, 4, 8). -/
theorem memory_size_three_succeeds :
    (MemoryDevice.handleRead ⟨List.replicate 8 0, false⟩
        { address := 0, size := 3, type := MemAccessType.Read, data := 0 }).success = true ∧
      ¬ (3 = 1 ∨ 3 = 2 ∨ 3 = 4 ∨ 3 = 8) := by
  exact ⟨rfl, by decide⟩

/-- C7: on a writable memory device, writing a value of size
`s ∈ {1,2,4,8}` in range and reading it back succeeds and returns exactly
the written value (little-endian round-trip). -/
theorem ram_write_read_roundtrip (st : MemoryDeviceState) (o s v : Nat)
    (hro : st.readOnly = false) (hs : s = 1 ∨ s = 2 ∨ s = 4 ∨ s = 8)
    (hrange : o + s ≤ st.storage.length) (hv : v < 2 ^ (8 * s)) :
    (MemoryDevice.handleWrite st ⟨o, s, MemAccessType.Write, v⟩).1.success = true ∧
    MemoryDevice.handleRead (MemoryDevice.handleWrite st ⟨o, s, MemAccessType.Write, v⟩).2
        ⟨o, s, MemAccessType.Read, 0⟩ = { success := true, data := v } := by
  have hs1 : 1 ≤ s := by rcases hs with h | h | h | h <;> omega
  have hs8 : s ≤ 8 := by rcases hs with h | h | h | h <;> omega
  have hvalid : isAccessValid st.storage ⟨o, s, MemAccessType.Write, v⟩ = true :=
    (isAccessValid_iff _ _).mpr ⟨hs1, hs8, hrange⟩
  unfold MemoryDevice.handleWrite
  rw [if_neg (not_not_intro hvalid), if_neg (by simp [hro])]
  refine ⟨rfl, ?_⟩
  have hlen : (writeValue st.storage o v s).length = st.storage.length :=
    writeValue_length _ _ _ _
  have hvalid2 : isAccessValid (writeValue st.storage o v s)
      ⟨o, s, MemAccessType.Read, 0⟩ = true := by
    apply (isAccessValid_iff _ _).mpr
    rw [hlen]
    exact ⟨hs1, hs8, hrange⟩
  unfold MemoryDevice.handleRead
  have hrt : readValue (writeValue st.storage o v s) o s = v % 2 ^ (8 * s) :=
    readValue_writeValue s st.storage o v hrange
  simp only [if_neg (not_not_intro hvalid2), hrt, Nat.mod_eq_of_lt hv]

/-- Witness for C7 at a concrete input: a 4-byte write of 0x11223344 at
offset 4 of a 16-byte RAM round-trips. -/
theorem ram_write_read_roundtrip_witness :
    MemoryDevice.handleRead
        (MemoryDevice.handleWrite ⟨List.replicate 16 0, false⟩
          ⟨4, 4, MemAccessType.Write, 0x11223344⟩).2
        ⟨4, 4, MemAccessType.Read, 0⟩ = { success := true, data := 0x11223344 } := by
  exact (ram_write_read_roundtrip ⟨List.replicate 16 0, false⟩ 4 4 0x11223344
    rfl (by decide) (by decide) (by decide)).2

/-- C8: every write to a read-only memory device returns `AccessFault` and
leaves the storage unchanged. -/
theorem rom_write_fault (st : MemoryDeviceState) (a : MemAccess)
    (h : st.readOnly = true) :
    (MemoryDevice.handleWrite st a).1.success = false ∧
    (MemoryDevice.handleWrite st a).1.error.type = CpuErrorType.AccessFault ∧
    (MemoryDevice.handleWrite st a).1.error.address = a.address ∧
    (MemoryDevice.handleWrite st a).1.error.size = a.size ∧
    (MemoryDevice.handleWrite st a).2 = st := by
  unfold MemoryDevice.handleWrite
  by_cases hv : isAccessValid st.storage a = true <;> simp [hv, h, makeFault]

/-- Witness for C8 at a concrete input: a 4-byte write to an 8-byte ROM
faults and leaves the device state unchanged. -/
theorem rom_write_fault_witness :
    (MemoryDevice.handleWrite ⟨List.replicate 8 0, true⟩
        ⟨0, 4, MemAccessType.Write, 0xdeadbeef⟩).1.success = false ∧
    (MemoryDevice.handleWrite ⟨List.replicate 8 0, true⟩
        ⟨0, 4, MemAccessType.Write, 0xdeadbeef⟩).2 = ⟨List.replicate 8 0, true⟩ := by
  have h := rom_write_fault ⟨List.replicate 8 0, true⟩
    ⟨0, 4, MemAccessType.Write, 0xdeadbeef⟩ rfl
  exact ⟨h.1, h.2.2.2.2⟩

/-! Device base, from src/src/device/base.cpp.  The device-specific interior
is abstracted as a type sigma acted on by the optional tick handler. -/

/-- State of a Device: `mLastSyncCycle`, `mSyncThreshold`, the optional
`mTickHandler` and the device-specific interior state, from
src/src/device/base.cpp and its header. -/
structure DeviceState (sigma : Type) where
  lastSyncCycle : Nat
  syncThreshold : Nat
  tickHandler : Option (Nat → sigma → sigma)
  dev : sigma

/-- Device::tick from src/src/device/base.cpp lines 29-33: dispatch to the
tick handler if installed, otherwise do nothing. -/
def Device.tick {sigma : Type} (d : DeviceState sigma) (cycles : Nat) : DeviceState sigma :=
  match d.tickHandler with
  | some h => { d with dev := h cycles d.dev }
  | none => d

/-- Device::sync from src/src/device/base.cpp lines 35-45.  The source
computes `delta = currentCycle - mLastSyncCycle` after an early return when
`currentCycle <= mLastSyncCycle`; the subtraction below is that delta. -/
def Device.sync {sigma : Type} (d : DeviceState sigma) (currentCycle : Nat) : DeviceState sigma :=
  if currentCycle ≤ d.lastSyncCycle then d
  else if currentCycle - d.lastSyncCycle < d.syncThreshold then d
  else { Device.tick d (currentCycle - d.lastSyncCycle) with lastSyncCycle := currentCycle }

/-- C6: for a device used with a monotone cycle counter and a positive sync
threshold (the controller always installs `max(1, cpu_freq / dev_freq)`),
`sync(current)` computes `delta = current - last_sync_cycle`; when
`delta < sync_threshold` the device is left unchanged with no tick, otherwise
tick is invoked exactly once with `delta` and `last_sync_cycle` becomes
`current`. -/
theorem device_sync_threshold_law (sigma : Type) (d : DeviceState sigma) (currentCycle : Nat)
    (hmono : d.lastSyncCycle ≤ currentCycle) (hpos : 0 < d.syncThreshold) :
    Device.sync d currentCycle =
      if currentCycle - d.lastSyncCycle < d.syncThreshold then d
      else { Device.tick d (currentCycle - d.lastSyncCycle) with
             lastSyncCycle := currentCycle } := by
  unfold Device.sync
  by_cases heq : currentCycle ≤ d.lastSyncCycle
  · have hz : currentCycle - d.lastSyncCycle = 0 := by omega
    rw [if_pos heq, hz, if_pos hpos]
  · rw [if_neg heq]

/-- Concrete device used by the C6 witness: an accumulating tick handler
with threshold 100, mirroring the device_sync_threshold test. -/
def syncWitnessDevice : DeviceState Nat :=
  ⟨0, 100, some (fun delta n => n + delta), 0⟩

/-- Witness for C6 at a concrete input: threshold 100, last sync 0, sync at
cycle 150 ticks once with delta 150 and advances the sync point (mirrors the
device_sync_threshold test). -/
theorem device_sync_threshold_law_witness :
    (Device.sync syncWitnessDevice 150).lastSyncCycle = 150 ∧
    (Device.sync syncWitnessDevice 150).dev = 150 := by
  have h := device_sync_threshold_law Nat syncWitnessDevice 150
    (by simp [syncWitnessDevice]) (by simp [syncWitnessDevice])
  rw [h]
  norm_num [Device.tick, syncWitnessDevice]

/-! Memory bus, from src/src/bus/core.cpp.  Devices are identified by a
numeric id; delivery of a translated access to a device is modelled by
applying a response oracle for that id, since claim C5 concerns routing. -/

/-- One entry of `mDevices`, from include/emulator/bus/bus.h
(struct DeviceMapping); the source field `end` is `endAddr` here, and the
nullable `Device*` is an optional device id. -/
structure BusMapping where
  name : String
  devicePtr : Option Nat
  base : Nat
  size : Nat
  endAddr : Nat
  deriving DecidableEq

/-- Bus state: the mapping list and the mutable last-hit cache `mLastHit`. -/
structure BusState where
  mappings : List BusMapping
  lastHit : Option BusMapping
  deriving DecidableEq

/-- The scan loop inside MemoryBus::findMapping (src/src/bus/core.cpp lines
48-53): first mapping whose half-open range contains the address. -/
def MemoryBus.scanMappings : List BusMapping → Nat → Option BusMapping
  | [], _ => none
  | m :: rest, address =>
    if m.base ≤ address ∧ address < m.endAddr then some m
    else MemoryBus.scanMappings rest address

/-- MemoryBus::findMapping from src/src/bus/core.cpp lines 44-55: consult the
last-hit cache, otherwise rescan and update the cache on a hit. -/
def MemoryBus.findMapping (bus : BusState) (address : Nat) : Option BusMapping × BusState :=
  match bus.lastHit with
  | some m =>
    if m.base ≤ address ∧ address < m.endAddr then (some m, bus)
    else
      match MemoryBus.scanMappings bus.mappings address with
      | some m2 => (some m2, { bus with lastHit := some m2 })
      | none => (none, bus)
  | none =>
    match MemoryBus.scanMappings bus.mappings address with
    | some m2 => (some m2, { bus with lastHit := some m2 })
    | none => (none, bus)

/-- Unmapped-address response built inline in MemoryBus::read / write:
failure with `AccessFault` carrying the original address and size. -/
def MemoryBus.faultResponse (access : MemAccess) : MemResponse :=
  { success := false,
    error := { type := CpuErrorType.AccessFault,
               address := access.address,
               size := access.size } }

/-- MemoryBus::read from src/src/bus/core.cpp lines 74-88: translate to a
device-local access (`address -= mapping.base`) and delegate, or fault. -/
def MemoryBus.read (devs : Nat → MemAccess → MemResponse) (bus : BusState)
    (access : MemAccess) : MemResponse × BusState :=
  match MemoryBus.findMapping bus access.address with
  | (none, bus2) => (MemoryBus.faultResponse access, bus2)
  | (some m, bus2) =>
    match m.devicePtr with
    | none => (MemoryBus.faultResponse access, bus2)
    | some d => (devs d { access with address := access.address - m.base }, bus2)

/-- MemoryBus::write from src/src/bus/core.cpp lines 90-104, same shape as
read with the device write handler. -/
def MemoryBus.write (devs : Nat → MemAccess → MemResponse) (bus : BusState)
    (access : MemAccess) : MemResponse × BusState :=
  match MemoryBus.findMapping bus access.address with
  | (none, bus2) => (MemoryBus.faultResponse access, bus2)
  | (some m, bus2) =>
    match m.devicePtr with
    | none => (MemoryBus.faultResponse access, bus2)
    | some d => (devs d { access with address := access.address - m.base }, bus2)

/-- Mapping invariant established by MemoryBus::registerDevice:
the cached end address is `base + size`. -/
def mappingWF (m : BusMapping) : Prop := m.endAddr = m.base + m.size

/-- Disjointness of two mappings, as validated at wiring time. -/
def mappingsDisjoint (a b : BusMapping) : Prop :=
  a.base + a.size ≤ b.base ∨ b.base + b.size ≤ a.base

lemma scanMappings_eq_some {l : List BusMapping} {x : Nat} {m : BusMapping}
    (h : MemoryBus.scanMappings l x = some m) :
    m ∈ l ∧ m.base ≤ x ∧ x < m.endAddr := by
  induction l with
  | nil => simp [MemoryBus.scanMappings] at h
  | cons hd tl ih =>
    by_cases hc : hd.base ≤ x ∧ x < hd.endAddr
    · simp only [MemoryBus.scanMappings, if_pos hc] at h
      cases h
      exact ⟨List.mem_cons_self _ _, hc⟩
    · simp only [MemoryBus.scanMappings, if_neg hc] at h
      have := ih h
      exact ⟨List.mem_cons_of_mem _ this.1, this.2⟩

lemma scanMappings_eq_none {l : List BusMapping} {x : Nat}
    (h : ∀ m ∈ l, ¬ (m.base ≤ x ∧ x < m.endAddr)) :
    MemoryBus.scanMappings l x = none := by
  induction l with
  | nil => rfl
  | cons hd tl ih =>
    simp only [MemoryBus.scanMappings, if_neg (h hd (List.mem_cons_self _ _))]
    exact ih fun m hm => h m (List.mem_cons_of_mem _ hm)

lemma covering_mapping_unique {l : List BusMapping} {x : Nat} {m1 m2 : BusMapping}
    (hwf : ∀ m ∈ l, mappingWF m) (hdisj : l.Pairwise mappingsDisjoint)
    (hm1 : m1 ∈ l) (hm2 : m2 ∈ l)
    (hc1 : m1.base ≤ x ∧ x < m1.endAddr) (hc2 : m2.base ≤ x ∧ x < m2.endAddr) :
    m1 = m2 := by
  induction l with
  | nil => cases hm1
  | cons hd tl ih =>
    have hpair := List.pairwise_cons.mp hdisj
    rcases List.mem_cons.mp hm1 with h1 | h1 <;> rcases List.mem_cons.mp hm2 with h2 | h2
    · rw [h1, h2]
    · exfalso
      have hd1 := hpair.1 m2 h2
      have hw1 : mappingWF hd := hwf hd (List.mem_cons_self _ _)
      have hw2 : mappingWF m2 := hwf m2 (List.mem_cons_of_mem _ h2)
      unfold mappingWF at hw1 hw2
      unfold mappingsDisjoint at hd1
      rw [h1] at hc1
      omega
    · exfalso
      have hd1 := hpair.1 m1 h1
      have hw1 : mappingWF hd := hwf hd (List.mem_cons_self _ _)
      have hw2 : mappingWF m1 := hwf m1 (List.mem_cons_of_mem _ h1)
      unfold mappingWF at hw1 hw2
      unfold mappingsDisjoint at hd1
      rw [h2] at hc2
      omega
    · exact ih (fun m hm => hwf m (List.mem_cons_of_mem _ hm)) hpair.2 h1 h2

lemma scanMappings_ne_none {l : List BusMapping} {x : Nat} {m : BusMapping}
    (hm : m ∈ l) (hc : m.base ≤ x ∧ x < m.endAddr) :
    MemoryBus.scanMappings l x ≠ none := by
  induction l with
  | nil => cases hm
  | cons hd tl ih =>
    by_cases hcc : hd.base ≤ x ∧ x < hd.endAddr
    · simp [MemoryBus.scanMappings, if_pos hcc]
    · simp only [MemoryBus.scanMappings, if_neg hcc]
      rcases List.mem_cons.mp hm with h1 | h1
      · rw [h1] at hc
        exact absurd hc hcc
      · exact ih h1

lemma findMapping_covered {bus : BusState} {x : Nat} {m : BusMapping}
    (hwf : ∀ mm ∈ bus.mappings, mappingWF mm)
    (hdisj : bus.mappings.Pairwise mappingsDisjoint)
    (hlast : ∀ mm, bus.lastHit = some mm → mm ∈ bus.mappings)
    (hm : m ∈ bus.mappings) (hc : m.base ≤ x ∧ x < m.endAddr) :
    (MemoryBus.findMapping bus x).1 = some m := by
  have huniq : ∀ m2, m2 ∈ bus.mappings → m2.base ≤ x ∧ x < m2.endAddr → m2 = m :=
    fun m2 h2 hc2 => covering_mapping_unique hwf hdisj h2 hm hc2 hc
  unfold MemoryBus.findMapping
  cases hl : bus.lastHit with
  | some m0 =>
    dsimp only
    by_cases hc0 : m0.base ≤ x ∧ x < m0.endAddr
    · rw [if_pos hc0, huniq m0 (hlast m0 hl) hc0]
    · rw [if_neg hc0]
      cases hs : MemoryBus.scanMappings bus.mappings x with
      | none => exact absurd hs (scanMappings_ne_none hm hc)
      | some m2 =>
        dsimp only
        rw [huniq m2 (scanMappings_eq_some hs).1 (scanMappings_eq_some hs).2]
  | none =>
    dsimp only
    cases hs : MemoryBus.scanMappings bus.mappings x with
    | none => exact absurd hs (scanMappings_ne_none hm hc)
    | some m2 =>
      dsimp only
      rw [huniq m2 (scanMappings_eq_some hs).1 (scanMappings_eq_some hs).2]

lemma findMapping_uncovered {bus : BusState} {x : Nat}
    (hlast : ∀ mm, bus.lastHit = some mm → mm ∈ bus.mappings)
    (hnone : ∀ mm ∈ bus.mappings, ¬ (mm.base ≤ x ∧ x < mm.endAddr)) :
    (MemoryBus.findMapping bus x).1 = none := by
  have hscan : MemoryBus.scanMappings bus.mappings x = none := scanMappings_eq_none hnone
  unfold MemoryBus.findMapping
  cases hl : bus.lastHit with
  | some m0 =>
    dsimp only
    have h0 := hnone m0 (hlast m0 hl)
    rw [if_neg h0, hscan]
  | none =>
    dsimp only
    rw [hscan]

/-- C5: with pairwise-disjoint well-formed registered mappings and a valid
last-hit cache, a bus access at `b + o` inside a mapping `[b, b+n)` is
delegated to that mapping's device with the address replaced by the local
offset `o` and every other field unchanged, while an access at an address
covered by no mapping fails with `AccessFault` carrying the original address
and size, for reads and writes alike. -/
theorem bus_delegation (devR devW : Nat → MemAccess → MemResponse) (bus : BusState)
    (access : MemAccess)
    (hwf : ∀ m ∈ bus.mappings, mappingWF m)
    (hdisj : bus.mappings.Pairwise mappingsDisjoint)
    (hlast : ∀ m, bus.lastHit = some m → m ∈ bus.mappings) :
    (∀ m ∈ bus.mappings, ∀ d, m.devicePtr = some d → ∀ o, o < m.size →
        access.address = m.base + o →
        (MemoryBus.read devR bus access).1 = devR d { access with address := o } ∧
        (MemoryBus.write devW bus access).1 = devW d { access with address := o }) ∧
    ((∀ m ∈ bus.mappings, ¬ (m.base ≤ access.address ∧ access.address < m.base + m.size)) →
        ((MemoryBus.read devR bus access).1 = MemoryBus.faultResponse access ∧
         (MemoryBus.write devW bus access).1 = MemoryBus.faultResponse access ∧
         (MemoryBus.faultResponse access).success = false ∧
         (MemoryBus.faultResponse access).error.type = CpuErrorType.AccessFault ∧
         (MemoryBus.faultResponse access).error.address = access.address ∧
         (MemoryBus.faultResponse access).error.size = access.size)) := by
  constructor
  · intro m hm d hd o ho haddr
    have hc : m.base ≤ access.address ∧ access.address < m.endAddr := by
      have := hwf m hm
      unfold mappingWF at this
      omega
    have hfm := findMapping_covered hwf hdisj hlast hm hc
    have hsub : access.address - m.base = o := by omega
    constructor
    · unfold MemoryBus.read
      rcases hpair : MemoryBus.findMapping bus access.address with ⟨mo, bus2⟩
      have : mo = some m := by rw [← hfm, hpair]
      rw [this]
      dsimp only
      rw [hd]
      dsimp only
      rw [hsub]
    · unfold MemoryBus.write
      rcases hpair : MemoryBus.findMapping bus access.address with ⟨mo, bus2⟩
      have : mo = some m := by rw [← hfm, hpair]
      rw [this]
      dsimp only
      rw [hd]
      dsimp only
      rw [hsub]
  · intro hnone
    have hnone2 : ∀ mm ∈ bus.mappings, ¬ (mm.base ≤ access.address ∧ access.address < mm.endAddr) := by
      intro mm hmm
      have := hwf mm hmm
      unfold mappingWF at this
      rw [this]
      exact hnone mm hmm
    have hfm := findMapping_uncovered hlast hnone2
    refine ⟨?_, ?_, rfl, rfl, rfl, rfl⟩
    · unfold MemoryBus.read
      rcases hpair : MemoryBus.findMapping bus access.address with ⟨mo, bus2⟩
      have : mo = none := by rw [← hfm, hpair]
      rw [this]
    · unfold MemoryBus.write
      rcases hpair : MemoryBus.findMapping bus access.address with ⟨mo, bus2⟩
      have : mo = none := by rw [← hfm, hpair]
      rw [this]

/-- Concrete bus used by the C5 witness: one device (id 0) mapped at
`[16, 32)` and an empty last-hit cache. -/
def busWitnessState : BusState :=
  ⟨[⟨"RAM", some 0, 16, 16, 32⟩], none⟩

/-- Concrete device-response oracle used by the C5 witness. -/
def busWitnessOracle : Nat → MemAccess → MemResponse :=
  fun _ access => { success := true, data := access.address }

/-- Witness for C5 at concrete inputs: an access at address 20 inside the
mapping `[16, 32)` is delegated with local offset 4, and an access at the
unmapped address 100 faults. -/
theorem bus_delegation_witness :
    (MemoryBus.read busWitnessOracle busWitnessState ⟨20, 4, MemAccessType.Read, 0⟩).1 =
      busWitnessOracle 0 ⟨4, 4, MemAccessType.Read, 0⟩ ∧
    (MemoryBus.read busWitnessOracle busWitnessState ⟨100, 4, MemAccessType.Read, 0⟩).1 =
      MemoryBus.faultResponse ⟨100, 4, MemAccessType.Read, 0⟩ := by
  constructor
  · exact ((bus_delegation busWitnessOracle busWitnessOracle busWitnessState
      ⟨20, 4, MemAccessType.Read, 0⟩
      (by intro m hm; simp [busWitnessState] at hm; simp [hm, mappingWF])
      (by simp [busWitnessState])
      (by intro m hm; simp [busWitnessState] at hm)).1
      ⟨"RAM", some 0, 16, 16, 32⟩ (by simp [busWitnessState]) 0 rfl 4 (by norm_num) rfl).1
  · exact ((bus_delegation busWitnessOracle busWitnessOracle busWitnessState
      ⟨100, 4, MemAccessType.Read, 0⟩
      (by intro m hm; simp [busWitnessState] at hm; simp [hm, mappingWF])
      (by simp [busWitnessState])
      (by intro m hm; simp [busWitnessState] at hm)).2
      (by intro m hm; simp [busWitnessState] at hm; simp [hm])).1

/-! Timer device, from src/src/device/timer.cpp.  This variant keeps time
with the host steady clock: the clock reading `now` (microseconds, as the
source takes `duration_cast<microseconds>(now - LastTick).count()`) is passed
explicitly to each operation that samples it. -/

/-- Timer state: `LastTick` (steady-clock time point, in microseconds),
`AccumulatedMicros` (u64) and `PendingCycles` (u32), from
src/src/device/timer.cpp. -/
structure TimerState where
  lastTick : Int
  accumulatedMicros : Nat
  pendingCycles : Nat
  deriving DecidableEq

/-- TimerDevice::GetCounterMicros from src/src/device/timer.cpp lines 34-42:
sample the clock, move `LastTick` to now, and add the positive wall-clock
delta to the accumulated microsecond counter (u64 wrap-around made explicit). -/
def TimerDevice.getCounterMicros (st : TimerState) (now : Int) : Nat × TimerState :=
  let delta : Int := now - st.lastTick
  if 0 < delta then
    let acc := (st.accumulatedMicros + delta.toNat) % 2 ^ 64
    (acc, { st with lastTick := now, accumulatedMicros := acc })
  else
    (st.accumulatedMicros, { st with lastTick := now })

/-- TimerDevice::AccumulateCycles from src/src/device/timer.cpp lines 44-50:
batch cycles modulo `kTickBatchCycles = 1000` (u32 addition wraps) and sample
the clock when a full batch has elapsed. -/
def TimerDevice.accumulateCycles (st : TimerState) (cycles : Nat) (now : Int) : TimerState :=
  let total := (st.pendingCycles + cycles) % 2 ^ 32
  let st1 := { st with pendingCycles := total % 1000 }
  if 1000 ≤ total then (TimerDevice.getCounterMicros st1 now).2 else st1

/-- TimerDevice::HandleTick from src/src/device/timer.cpp lines 52-54. -/
def TimerDevice.handleTick (st : TimerState) (cycles : Nat) (now : Int) : TimerState :=
  TimerDevice.accumulateCycles st cycles now

/-- Fault response built by the timer's MakeFault (src/src/device/timer.cpp
lines 15-22). -/
def TimerDevice.makeFault (access : MemAccess) : MemResponse :=
  { success := false,
    error := { type := CpuErrorType.AccessFault,
               address := access.address,
               size := access.size } }

/-- TimerDevice::HandleRead from src/src/device/timer.cpp lines 56-70: only
4-byte reads of the low (0x0) or high (0x4) register succeed, and reading
samples the clock through GetCounterMicros. -/
def TimerDevice.handleRead (st : TimerState) (access : MemAccess) (now : Int) :
    MemResponse × TimerState :=
  if access.size ≠ 4 then (TimerDevice.makeFault access, st)
  else if access.address ≠ 0 ∧ access.address ≠ 4 then (TimerDevice.makeFault access, st)
  else
    let r := TimerDevice.getCounterMicros st now
    if access.address = 0 then
      ({ success := true, data := r.1 % 2 ^ 32 }, r.2)
    else
      ({ success := true, data := (r.1 >>> 32) % 2 ^ 32 }, r.2)

/-- TimerDevice::HandleWrite from src/src/device/timer.cpp lines 72-85: a
4-byte write to the control register (0x8) resets the counter, the pending
batch and the clock sample point; everything else faults. -/
def TimerDevice.handleWrite (st : TimerState) (access : MemAccess) (now : Int) :
    MemResponse × TimerState :=
  if access.size ≠ 4 then (TimerDevice.makeFault access, st)
  else if access.address = 8 then
    ({ success := true }, { lastTick := now, accumulatedMicros := 0, pendingCycles := 0 })
  else (TimerDevice.makeFault access, st)

/-- C3 counterexample: with last clock sample at 0, pending 0 and counter 0,
a tick of exactly 1000 cycles taken at wall-clock time 5 microseconds leaves
the counter at 5, not at `accumulated + cycles = 1000` as the claim states. -/
theorem timer_tick_counterexample :
    (TimerDevice.handleTick ⟨0, 0, 0⟩ 1000 5).accumulatedMicros = 5 ∧
    (TimerDevice.handleTick ⟨0, 0, 0⟩ 1000 5).accumulatedMicros ≠ 0 + 1000 := by
  exact ⟨rfl, by decide⟩

/-- C3 (amended): the timer counter advances by the elapsed wall-clock
microseconds, not by the tick's cycle count; a tick only triggers the
advance when the batched cycle total reaches 1000, and a read of the low
counter register advances the counter by the same wall-clock delta, so tick
time is not the only advance point. -/
theorem timer_counter_advances_by_wallclock (st : TimerState) (cycles : Nat) (now : Int)
    (h1 : st.lastTick < now) (h2 : 1000 ≤ (st.pendingCycles + cycles) % 2 ^ 32) :
    (TimerDevice.handleTick st cycles now).accumulatedMicros =
      (st.accumulatedMicros + (now - st.lastTick).toNat) % 2 ^ 64 ∧
    (TimerDevice.handleRead st ⟨0, 4, MemAccessType.Read, 0⟩ now).2.accumulatedMicros =
      (st.accumulatedMicros + (now - st.lastTick).toNat) % 2 ^ 64 := by
  have hdelta : (0 : Int) < now - st.lastTick := by omega
  constructor
  · unfold TimerDevice.handleTick TimerDevice.accumulateCycles TimerDevice.getCounterMicros
    rw [if_pos h2]
    dsimp only
    rw [if_pos hdelta]
  · unfold TimerDevice.handleRead TimerDevice.getCounterMicros
    norm_num
    rw [if_pos h1]

/-- Witness for C3's amended theorem at a concrete input: tick of 1000
cycles at wall time 5 puts the counter at 5, and a low-register read at wall
time 5 does the same. -/
theorem timer_counter_advances_by_wallclock_witness :
    (TimerDevice.handleTick ⟨0, 0, 0⟩ 1000 5).accumulatedMicros = 5 ∧
    (TimerDevice.handleRead ⟨0, 0, 0⟩ ⟨0, 4, MemAccessType.Read, 0⟩ 5).2.accumulatedMicros
      = 5 := by
  have h := timer_counter_advances_by_wallclock ⟨0, 0, 0⟩ 1000 5 (by decide) (by decide)
  refine ⟨?_, ?_⟩
  · rw [h.1]
    decide
  · rw [h.2]
    decide

/-! Debugger run state and the CPU worker loop, from
src/src/debugger/core.cpp. -/

/-- CPU run states, from include/emulator/cpu/cpu.h (enum CpuState). -/
inductive CpuState where
  | Running
  | Pause
  | Halted
  deriving DecidableEq

/-- The shared run-state block, from include/emulator/debugger/debugger.h
(struct EmulatorRunState): atomic CPU state, exit flag and pending step
count. -/
structure EmulatorRunState where
  state : CpuState
  shouldExit : Bool
  stepsPending : Nat
  deriving DecidableEq

/-- One wakeup of Debugger::CpuThreadLoop (src/src/debugger/core.cpp lines
270-339), sequentially: consume `StepsPending` (forcing Running for the
burst), run the burst whose `StepResult.Success` is `stepSuccess`, transition
to Halted on failure (line 309), then back to Pause when the burst came from
a step request and no exit is pending (lines 316-318).  The instruction batch
constant 1000 is `kInstructionsPerBatch`. -/
def Debugger.cpuThreadIteration (st : EmulatorRunState) (stepSuccess : Bool) :
    EmulatorRunState :=
  if st.shouldExit then st
  else
    let pending := st.stepsPending
    let st1 := if 0 < pending then
        { st with stepsPending := 0, state := CpuState.Running }
      else st
    let steps := if 0 < pending then pending
      else if st1.state = CpuState.Running then 1000 else 0
    if steps = 0 then st1
    else
      let st2 := if stepSuccess then st1 else { st1 with state := CpuState.Halted }
      if 0 < pending ∧ st2.shouldExit = false then { st2 with state := CpuState.Pause }
      else st2

/-- C1 (code bug): a step burst (`steps_pending = 1`) whose `cpu.step`
reports failure ends with run state Pause, not Halted: line 309 stores
Halted but line 317 unconditionally overwrites it with Pause for stepping
bursts.  A failing burst started from Running does keep Halted. -/
theorem step_burst_failure_lands_pause :
    Debugger.cpuThreadIteration ⟨CpuState.Pause, false, 1⟩ false =
      ⟨CpuState.Pause, false, 0⟩ ∧
    CpuState.Pause ≠ CpuState.Halted ∧
    Debugger.cpuThreadIteration ⟨CpuState.Running, false, 0⟩ false =
      ⟨CpuState.Halted, false, 0⟩ := by
  exact ⟨rfl, by decide, rfl⟩

/-! Toy CPU executor, from src/test/toy_cpu_executor.cc, together with the
trace/debugger records it uses from include/emulator/cpu/cpu.h.  The
debugger handle (ICpuDebugger) is modelled as a breakpoint list plus bus and
trace operations acting on an abstract handle state sigma. -/

/-- Trace options, from include/emulator/cpu/cpu.h (struct TraceOptions). -/
structure TraceOptions where
  logInstruction : Bool := true
  logMemEvents : Bool := true
  logBranchPrediction : Bool := true
  deriving DecidableEq

/-- One memory event of a trace record, from include/emulator/cpu/cpu.h
(struct MemAccessEvent). -/
structure MemAccessEvent where
  type : MemAccessType := MemAccessType.Read
  address : Nat := 0
  size : Nat := 0
  data : Nat := 0
  latencyCycles : Nat := 0
  deriving DecidableEq

/-- Branch details of a trace record, from include/emulator/cpu/cpu.h. -/
structure BranchDetails where
  taken : Bool := false
  target : Nat := 0
  predictedTaken : Bool := false
  predictedTarget : Nat := 0
  deriving DecidableEq

/-- Per-instruction trace record, from include/emulator/cpu/cpu.h
(struct TraceRecord); the free-form `Extra` list is unused by the executor
and omitted. -/
structure TraceRecord where
  pc : Nat := 0
  inst : Nat := 0
  decoded : String := ""
  cycleBegin : Nat := 0
  cycleEnd : Nat := 0
  memEvents : List MemAccessEvent := []
  isBranch : Bool := false
  branch : BranchDetails := {}
  deriving DecidableEq

/-- Step result, from include/emulator/cpu/cpu.h (struct StepResult). -/
structure StepResult where
  success : Bool := true
  instructionsExecuted : Nat := 0
  cyclesExecuted : Nat := 0
  deriving DecidableEq

/-- The debugger handle the executor talks through (class ICpuDebugger in
include/emulator/cpu/cpu.h, implemented by Debugger in
src/src/debugger/core.cpp): breakpoints are a list (Debugger::IsBreakpoint
is list membership, Debugger::HasBreakpoints is non-emptiness, core.cpp
lines 694-702), and bus reads/writes and trace logging act on a handle
state sigma. -/
structure ICpuDebugger (sigma : Type) where
  breakpoints : List Nat
  traceOptions : TraceOptions
  busRead : MemAccess → sigma → MemResponse × sigma
  busWrite : MemAccess → sigma → MemResponse × sigma
  logTrace : TraceRecord → sigma → sigma

/-- Architectural state of ToyCpuExecutor, from src/test/toy_cpu_executor.h:
sixteen 64-bit registers, PC, cycle counter and the last-error record. -/
structure ToyCpu where
  regs : Nat → Nat
  pc : Nat
  cycle : Nat
  lastError : CpuErrorDetail

/-- ToyCpuExecutor::GetRegister, src/test/toy_cpu_executor.cc lines 76-84:
out-of-range and register 0 read as zero. -/
def ToyCpuExecutor.getRegister (st : ToyCpu) (regId : Nat) : Nat :=
  if 16 ≤ regId then 0
  else if regId = 0 then 0
  else st.regs regId

/-- ToyCpuExecutor::SetRegister, src/test/toy_cpu_executor.cc lines 86-94:
out-of-range and register 0 writes are ignored. -/
def ToyCpuExecutor.setRegister (st : ToyCpu) (regId : Nat) (value : Nat) : ToyCpu :=
  if 16 ≤ regId then st
  else if regId = 0 then st
  else { st with regs := fun i => if i = regId then value else st.regs i }

/-- ToyCpuExecutor::Fault, src/test/toy_cpu_executor.cc lines 104-109: set
the error type, address and size of the last-error record (its data field is
untouched) and report failure. -/
def ToyCpuExecutor.fault (st : ToyCpu) (type : CpuErrorType) (addr : Nat) (size : Nat) :
    ToyCpu × Bool :=
  ({ st with lastError := { st.lastError with type := type, address := addr, size := size } },
   false)

/-- Instruction field decoders from src/test/toy_cpu_executor.cc lines 16-38:
opcode, destination and source register bytes, 16-bit immediate and the
signed 8-bit offset (an int8, sign extended). -/
def toyOpCode (inst : Nat) : Nat := (inst >>> 24) % 256

def toyRd (inst : Nat) : Nat := (inst >>> 16) % 256

def toyRs (inst : Nat) : Nat := (inst >>> 8) % 256

def toyImm16 (inst : Nat) : Nat := inst % 65536

def toyOff8 (inst : Nat) : Int :=
  if inst % 256 < 128 then (inst % 256 : Nat) else (inst % 256 : Nat) - 256

/-- Unsigned 64-bit addition of a signed displacement, as the source's
`uint64_t + int64_t` arithmetic (wrap-around made explicit). -/
def wrapAddInt (a : Nat) (b : Int) : Nat := (((a : Int) + b) % (2 ^ 64 : Int)).toNat

/-- ToyCpuExecutor::FetchU32, src/test/toy_cpu_executor.cc lines 111-124:
4-byte fetch through the debugger handle; returns the low 32 bits on
success, zero otherwise, together with the raw response. -/
def ToyCpuExecutor.fetchU32 (dbg : ICpuDebugger sigma) (pc : Nat) (ds : sigma) :
    Nat × MemResponse × sigma :=
  let r := dbg.busRead ⟨pc, 4, MemAccessType.Fetch, 0⟩ ds
  if r.1.success then (r.1.data % 2 ^ 32, r.1, r.2) else (0, r.1, r.2)

/-- The while loop of ToyCpuExecutor::Step, src/test/toy_cpu_executor.cc
lines 141-311.  The fuel argument is initialised to `maxInstructions`; every
iteration either returns or retires one instruction (both counters advance
by exactly 1), so the loop condition fails before fuel runs out and the
fuel-0 branch coincides with the loop-exit result. -/
def ToyCpuExecutor.stepLoop (dbg : ICpuDebugger sigma) (hasBreakpoints : Bool)
    (opts : TraceOptions) (maxInstructions maxCycles : Nat) :
    Nat → ToyCpu → sigma → Nat → Nat → StepResult × ToyCpu × sigma
  | 0, st, ds, ie, ce => (⟨true, ie, ce⟩, st, ds)
  | fuel + 1, st, ds, ie, ce =>
    if ie < maxInstructions ∧ ce < maxCycles then
      if hasBreakpoints ∧ st.pc ∈ dbg.breakpoints then (⟨true, ie, ce⟩, st, ds)
      else
        let record0 : TraceRecord := { pc := st.pc, cycleBegin := st.cycle }
        let fr := ToyCpuExecutor.fetchU32 dbg st.pc ds
        let inst := fr.1
        let fetch := fr.2.1
        let ds := fr.2.2
        let record1 := if opts.logMemEvents then
            { record0 with memEvents := record0.memEvents ++
                [⟨MemAccessType.Fetch, st.pc, 4, inst, fetch.latencyCycles⟩] }
          else record0
        if fetch.success = false then
          let st := { st with lastError := fetch.error }
          let errRecord :=
            { record1 with inst := 0, decoded := "FETCH_ERROR", cycleEnd := st.cycle }
          let ds := if opts.logMemEvents then dbg.logTrace errRecord ds else ds
          (⟨false, ie, ce⟩, st, ds)
        else
          let record2 := { record1 with inst := inst }
          let pcBefore := st.pc
          let st := { st with pc := (st.pc + 4) % 2 ^ 64, cycle := st.cycle + 1 }
          let ie := ie + 1
          let ce := ce + 1
          let op := toyOpCode inst
          let step :
              ToyCpu × sigma × TraceRecord × Bool :=
            if op = 0x00 then
              (st, ds,
               (if opts.logInstruction then { record2 with decoded := "NOP" } else record2),
               true)
            else if op = 0x7f then
              let f := ToyCpuExecutor.fault st CpuErrorType.Halt pcBefore 4
              (f.1, ds,
               (if opts.logInstruction then { record2 with decoded := "HALT" } else record2),
               f.2)
            else if op = 0x01 then
              let rd := toyRd inst
              let imm := toyImm16 inst
              let record3 := if opts.logInstruction then
                  { record2 with decoded := "LUI r" ++ toString rd ++ ", " ++ toString imm }
                else record2
              (ToyCpuExecutor.setRegister st rd (imm <<< 16), ds, record3, true)
            else if op = 0x02 then
              let rd := toyRd inst
              let imm := toyImm16 inst
              let record3 := if opts.logInstruction then
                  { record2 with decoded := "ORI r" ++ toString rd ++ ", " ++ toString imm }
                else record2
              (ToyCpuExecutor.setRegister st rd (ToyCpuExecutor.getRegister st rd ||| imm),
               ds, record3, true)
            else if op = 0x05 then
              let r0 := toyRd inst
              let r1 := toyRs inst
              let off := toyOff8 inst
              let record3 := if opts.logInstruction then
                  { record2 with decoded := "BEQ r" ++ toString r0 ++ ", r" ++ toString r1 ++
                      ", " ++ toString off }
                else record2
              let taken := ToyCpuExecutor.getRegister st r0 == ToyCpuExecutor.getRegister st r1
              let branchInfo : BranchDetails :=
                { taken := taken, target := wrapAddInt st.pc (off * 4),
                  predictedTaken := false, predictedTarget := wrapAddInt st.pc (off * 4) }
              let record4 := { record3 with isBranch := true, branch := branchInfo }
              let st := if taken then { st with pc := wrapAddInt st.pc (off * 4) } else st
              (st, ds, record4, true)
            else if op = 0x03 then
              let rd := toyRd inst
              let rs := toyRs inst
              let off := toyOff8 inst
              let record3 := if opts.logInstruction then
                  { record2 with decoded := "LW r" ++ toString rd ++ ", [r" ++ toString rs ++
                      "+" ++ toString off ++ "]" }
                else record2
              let addr := wrapAddInt (ToyCpuExecutor.getRegister st rs) off
              let r := dbg.busRead ⟨addr, 4, MemAccessType.Read, 0⟩ ds
              let ds := r.2
              let record4 := if opts.logMemEvents then
                  { record3 with memEvents := record3.memEvents ++
                      [⟨MemAccessType.Read, addr, 4, r.1.data, r.1.latencyCycles⟩] }
                else record3
              if r.1.success = false then
                ({ st with lastError := r.1.error }, ds, record4, false)
              else
                (ToyCpuExecutor.setRegister st rd (r.1.data % 2 ^ 32), ds, record4, true)
            else if op = 0x04 then
              let rs := toyRd inst
              let rdBase := toyRs inst
              let off := toyOff8 inst
              let record3 := if opts.logInstruction then
                  { record2 with decoded := "SW r" ++ toString rs ++ ", [r" ++ toString rdBase ++
                      "+" ++ toString off ++ "]" }
                else record2
              let addr := wrapAddInt (ToyCpuExecutor.getRegister st rdBase) off
              let dataw := ToyCpuExecutor.getRegister st rs % 2 ^ 32
              let w := dbg.busWrite ⟨addr, 4, MemAccessType.Write, dataw⟩ ds
              let ds := w.2
              let record4 := if opts.logMemEvents then
                  { record3 with memEvents := record3.memEvents ++
                      [⟨MemAccessType.Write, addr, 4, dataw, w.1.latencyCycles⟩] }
                else record3
              if w.1.success = false then
                ({ st with lastError := w.1.error }, ds, record4, false)
              else (st, ds, record4, true)
            else
              let f := ToyCpuExecutor.fault st CpuErrorType.InvalidOp pcBefore 4
              (f.1, ds,
               (if opts.logInstruction then { record2 with decoded := "INVALID_OP" }
                else record2),
               f.2)
          let st := step.1
          let ds := step.2.1
          let record5 := { step.2.2.1 with cycleEnd := st.cycle }
          let success := step.2.2.2
          let ds := if opts.logInstruction || opts.logBranchPrediction || opts.logMemEvents then
              dbg.logTrace record5 ds
            else ds
          if success = false then (⟨false, ie, ce⟩, st, ds)
          else ToyCpuExecutor.stepLoop dbg hasBreakpoints opts maxInstructions maxCycles
            fuel st ds ie ce
    else (⟨true, ie, ce⟩, st, ds)

/-- ToyCpuExecutor::Step, src/test/toy_cpu_executor.cc lines 126-314: null
debugger handle faults immediately, otherwise snapshot the trace options and
HasBreakpoints and run the loop. -/
def ToyCpuExecutor.step (dbg : Option (ICpuDebugger sigma)) (maxInstructions maxCycles : Nat)
    (st : ToyCpu) (ds : sigma) : StepResult × ToyCpu × sigma :=
  match dbg with
  | none =>
    ((ToyCpuExecutor.fault st CpuErrorType.DeviceFault st.pc 0).1, ds) |>
      (fun p => (⟨false, 0, 0⟩, p.1, p.2))
  | some dbg =>
    ToyCpuExecutor.stepLoop dbg (!dbg.breakpoints.isEmpty) dbg.traceOptions
      maxInstructions maxCycles maxInstructions st ds 0 0

/-- C9: with a breakpoint set at the current PC, a call to Step executes
zero instructions and leaves the whole CPU state (in particular the PC)
unchanged: the breakpoint is consulted at the top of each iteration, before
any fetch. -/
theorem step_stops_at_breakpoint (sigma : Type) (dbg : ICpuDebugger sigma) (st : ToyCpu)
    (ds : sigma) (maxI maxC : Nat) (hbp : st.pc ∈ dbg.breakpoints) :
    (ToyCpuExecutor.step (some dbg) maxI maxC st ds).1.instructionsExecuted = 0 ∧
    (ToyCpuExecutor.step (some dbg) maxI maxC st ds).2.1.pc = st.pc ∧
    (ToyCpuExecutor.step (some dbg) maxI maxC st ds).2.1 = st := by
  have hne : dbg.breakpoints.isEmpty = false := by
    cases hb : dbg.breakpoints with
    | nil => rw [hb] at hbp; cases hbp
    | cons hd tl => rfl
  have hbps : (!dbg.breakpoints.isEmpty) = true := by rw [hne]; rfl
  unfold ToyCpuExecutor.step
  dsimp only
  cases maxI with
  | zero => exact ⟨rfl, rfl, rfl⟩
  | succ n =>
    unfold ToyCpuExecutor.stepLoop
    dsimp only
    by_cases hcond : (0 : Nat) < n + 1 ∧ (0 : Nat) < maxC
    · rw [if_pos hcond, if_pos ⟨hbps, hbp⟩]
      exact ⟨rfl, rfl, rfl⟩
    · rw [if_neg hcond]
      exact ⟨rfl, rfl, rfl⟩

/-- Concrete handle state and debugger used by the C9 witness. -/
def bpWitnessDbg : ICpuDebugger Unit :=
  { breakpoints := [64],
    traceOptions := {},
    busRead := fun _ u => ({ success := true }, u),
    busWrite := fun _ u => ({ success := true }, u),
    logTrace := fun _ u => u }

/-- Concrete CPU state used by the C9 witness: PC at the breakpoint 64. -/
def bpWitnessCpu : ToyCpu :=
  { regs := fun _ => 0, pc := 64, cycle := 0, lastError := {} }

/-- Witness for C9 at concrete inputs: stepping with a breakpoint at PC = 64
executes nothing and leaves PC at 64. -/
theorem step_stops_at_breakpoint_witness :
    (ToyCpuExecutor.step (some bpWitnessDbg) 10 10 bpWitnessCpu ()).1.instructionsExecuted
      = 0 ∧
    (ToyCpuExecutor.step (some bpWitnessDbg) 10 10 bpWitnessCpu ()).2.1.pc = 64 := by
  have h := step_stops_at_breakpoint Unit bpWitnessDbg bpWitnessCpu () 10 10
    (by simp [bpWitnessDbg, bpWitnessCpu])
  exact ⟨h.1, h.2.1⟩

/-- C10: in the ToyCpuExecutor, register 0 is hardwired to zero:
GetRegister(0) returns 0 in every state, and SetRegister(0, v) leaves the
executor state unchanged for every value. -/
theorem toycpu_register_zero_hardwired :
    (∀ st : ToyCpu, ToyCpuExecutor.getRegister st 0 = 0) ∧
    (∀ (st : ToyCpu) (v : Nat), ToyCpuExecutor.setRegister st 0 v = st) := by
  constructor
  · intro st
    rfl
  · intro st v
    rfl

/-! Expression evaluator, from src/src/debugger/expression_parser.cpp.
The expression is a character list (the debugger feeds ASCII command text);
the C locale character classes used by the tokenizer are embedded below. -/

/-- C `isspace` in the C locale. -/
def cIsSpace (c : Char) : Bool :=
  c == ' ' || c == '\t' || c == '\n' || c == '\x0b' || c == '\x0c' || c == '\r'

/-- C `isdigit`. -/
def cIsDigit (c : Char) : Bool :=
  decide ('0' ≤ c) && decide (c ≤ '9')

/-- C `isxdigit`, the digits accepted by `stoull` base 16. -/
def cIsHexDigit (c : Char) : Bool :=
  cIsDigit c || (decide ('a' ≤ c) && decide (c ≤ 'f')) ||
    (decide ('A' ≤ c) && decide (c ≤ 'F'))

/-- C `isalnum` in the C locale. -/
def cIsAlnum (c : Char) : Bool :=
  cIsDigit c || (decide ('a' ≤ c) && decide (c ≤ 'z')) ||
    (decide ('A' ≤ c) && decide (c ≤ 'Z'))

/-- Value of a decimal digit. -/
def digitVal (c : Char) : Nat := c.toNat - 48

/-- Value of a hexadecimal digit. -/
def hexVal (c : Char) : Nat :=
  if cIsDigit c then c.toNat - 48
  else if decide ('a' ≤ c) && decide (c ≤ 'f') then c.toNat - 87
  else c.toNat - 55

/-- Decimal reading of a digit string, as `std::stoull(s, ..., 10)` does. -/
def decDigitsToNat (l : List Char) : Nat :=
  l.foldl (fun acc c => acc * 10 + digitVal c) 0

/-- Hexadecimal reading of a digit string, as `std::stoull(s, ..., 16)`. -/
def hexDigitsToNat (l : List Char) : Nat :=
  l.foldl (fun acc c => acc * 16 + hexVal c) 0

/-- The whitespace-skipping loop at the top of NextToken
(src/src/debugger/expression_parser.cpp lines 23-25). -/
def countLeadingSpaces : List Char → Nat
  | [] => 0
  | c :: rest => if cIsSpace c then countLeadingSpaces rest + 1 else 0

/-- Token kinds, from include/emulator/debugger/expression_parser.h. -/
inductive TokenType where
  | Number
  | Register
  | Plus
  | Minus
  | Multiply
  | Divide
  | LParen
  | RParen
  | LBracket
  | RBracket
  | End
  | Error
  deriving DecidableEq

/-- One token: kind, numeric value and register text. -/
structure Token where
  type : TokenType
  value : Nat := 0
  text : List Char := []
  deriving DecidableEq

/-- Tokenizer state of ExpressionParser: the expression `expr_`, cursor
`pos_` and current token `curr_`. -/
structure PState where
  expr : List Char
  pos : Nat
  curr : Token
  deriving DecidableEq

/-- ExpressionParser::NextToken, src/src/debugger/expression_parser.cpp
lines 22-77.  Number parsing follows `std::stoull`: the hex branch with no
hex digit after "0x" consumes only the "0"; on out-of-range values stoull
throws before writing the position, so the source adds the unchanged
initial value of `nextPos` (which is `pos_`) to `pos_`, doubling it, and
yields value 0 through the catch block. -/
def ExpressionParser.nextToken (s : PState) : PState :=
  let pos := s.pos + countLeadingSpaces (s.expr.drop s.pos)
  if s.expr.length ≤ pos then
    { s with pos := pos, curr := { type := TokenType.End } }
  else
    let c := s.expr.getD pos ' '
    if cIsDigit c then
      if decide (pos + 2 ≤ s.expr.length) && decide (s.expr.getD pos ' ' = '0') &&
          (decide (s.expr.getD (pos + 1) ' ' = 'x') ||
           decide (s.expr.getD (pos + 1) ' ' = 'X')) then
        let hexDigits := ((s.expr.drop pos).drop 2).takeWhile cIsHexDigit
        if hexDigits.isEmpty then
          { s with pos := pos + 1, curr := { type := TokenType.Number, value := 0 } }
        else
          let v := hexDigitsToNat hexDigits
          if v < 2 ^ 64 then
            { s with pos := pos + 2 + hexDigits.length,
                     curr := { type := TokenType.Number, value := v } }
          else
            { s with pos := pos + pos, curr := { type := TokenType.Number, value := 0 } }
      else
        let decDigits := (s.expr.drop pos).takeWhile cIsDigit
        let v := decDigitsToNat decDigits
        if v < 2 ^ 64 then
          { s with pos := pos + decDigits.length,
                   curr := { type := TokenType.Number, value := v } }
        else
          { s with pos := pos + pos, curr := { type := TokenType.Number, value := 0 } }
    else if c = '$' then
      let text := (s.expr.drop (pos + 1)).takeWhile cIsAlnum
      { s with pos := pos + 1 + text.length,
               curr := { type := TokenType.Register, text := text } }
    else
      let t := if c = '+' then TokenType.Plus
        else if c = '-' then TokenType.Minus
        else if c = '*' then TokenType.Multiply
        else if c = '/' then TokenType.Divide
        else if c = '(' then TokenType.LParen
        else if c = ')' then TokenType.RParen
        else if c = '[' then TokenType.LBracket
        else if c = ']' then TokenType.RBracket
        else TokenType.Error
      { s with pos := pos + 1, curr := { type := t } }

/-- The CPU accessors the evaluator consults (ICpuExecutor::GetPc and
GetRegister), as an oracle. -/
structure EvalCpu where
  pc : Nat
  reg : Nat → Nat

/-- The nullable `cpu_` and `bus_` members of ExpressionParser; the bus is a
read-response oracle since only `bus_->Read` is used. -/
structure ParserEnv where
  cpu : Option EvalCpu
  bus : Option (MemAccess → MemResponse)

/-- ExpressionParser::GetRegisterValue, src/src/debugger/expression_parser.cpp
lines 150-171: `$pc`/`$PC` read the PC; otherwise a leading r/R is stripped
and the rest is parsed by `std::stoul` (throws on no digits or on overflow,
yielding 0; the result is narrowed to uint32 for GetRegister). -/
def ExpressionParser.getRegisterValue (env : ParserEnv) (text : List Char) : Nat :=
  match env.cpu with
  | none => 0
  | some cpu =>
    if text = ['p', 'c'] ∨ text = ['P', 'C'] then cpu.pc
    else
      let numPart := if 1 < text.length ∧ (text.headD ' ' = 'r' ∨ text.headD ' ' = 'R') then
          text.tail
        else text
      let digits := numPart.takeWhile cIsDigit
      if digits.isEmpty then 0
      else
        let v := decDigitsToNat digits
        if v < 2 ^ 64 then cpu.reg (v % 2 ^ 32) else 0

/-- ExpressionParser::ReadMemory, src/src/debugger/expression_parser.cpp
lines 139-148: 4-byte bus read, zero on failure or missing bus. -/
def ExpressionParser.readMemory (env : ParserEnv) (addr : Nat) : Nat :=
  match env.bus with
  | none => 0
  | some bus =>
    let resp := bus ⟨addr, 4, MemAccessType.Read, 0⟩
    if resp.success then resp.data else 0

/-- Wrapping uint64 arithmetic used by the evaluator. -/
def u64add (a b : Nat) : Nat := (a + b) % 2 ^ 64

/-- Wrapping uint64 subtraction. -/
def u64sub (a b : Nat) : Nat := (a % 2 ^ 64 + (2 ^ 64 - b % 2 ^ 64)) % 2 ^ 64

/-- Wrapping uint64 multiplication. -/
def u64mul (a b : Nat) : Nat := (a * b) % 2 ^ 64

/-- Wrapping uint64 negation (the evaluator's unary minus). -/
def u64neg (a : Nat) : Nat := (2 ^ 64 - a % 2 ^ 64) % 2 ^ 64

/-- The mutually recursive productions of the recursive-descent parser:
ParseExpr, its additive while-loop, ParseTerm, its multiplicative
while-loop, and ParseFactor. -/
inductive ParseMode where
  | expr
  | exprLoop (v : Nat)
  | term
  | termLoop (v : Nat)
  | factor

/-- ExpressionParser::ParseExpr / ParseTerm / ParseFactor,
src/src/debugger/expression_parser.cpp lines 79-137, as one fuel-indexed
interpreter over the production being parsed (the source recursion always
terminates because every token consumes input; the fuel is a bound on the
call depth, and callers pass enough of it).  In ParseTerm's loop a division
only happens when the right operand is nonzero (line 98): a zero divisor
leaves the running value unchanged. -/
def ExpressionParser.parseRun (env : ParserEnv) : Nat → ParseMode → PState → Nat × PState
  | 0, mode, s =>
    match mode with
    | ParseMode.exprLoop v => (v, s)
    | ParseMode.termLoop v => (v, s)
    | _ => (0, s)
  | fuel + 1, mode, s =>
    match mode with
    | ParseMode.expr =>
      let r := ExpressionParser.parseRun env fuel ParseMode.term s
      ExpressionParser.parseRun env fuel (ParseMode.exprLoop r.1) r.2
    | ParseMode.exprLoop v =>
      if s.curr.type = TokenType.Plus ∨ s.curr.type = TokenType.Minus then
        let op := s.curr.type
        let s1 := ExpressionParser.nextToken s
        let r := ExpressionParser.parseRun env fuel ParseMode.term s1
        let v2 := if op = TokenType.Plus then u64add v r.1 else u64sub v r.1
        ExpressionParser.parseRun env fuel (ParseMode.exprLoop v2) r.2
      else (v, s)
    | ParseMode.term =>
      let r := ExpressionParser.parseRun env fuel ParseMode.factor s
      ExpressionParser.parseRun env fuel (ParseMode.termLoop r.1) r.2
    | ParseMode.termLoop v =>
      if s.curr.type = TokenType.Multiply ∨ s.curr.type = TokenType.Divide then
        let op := s.curr.type
        let s1 := ExpressionParser.nextToken s
        let r := ExpressionParser.parseRun env fuel ParseMode.factor s1
        let v2 := if op = TokenType.Multiply then u64mul v r.1
          else if r.1 ≠ 0 then v / r.1 else v
        ExpressionParser.parseRun env fuel (ParseMode.termLoop v2) r.2
      else (v, s)
    | ParseMode.factor =>
      if s.curr.type = TokenType.Number then
        (s.curr.value, ExpressionParser.nextToken s)
      else if s.curr.type = TokenType.Register then
        (ExpressionParser.getRegisterValue env s.curr.text, ExpressionParser.nextToken s)
      else if s.curr.type = TokenType.LParen then
        let s1 := ExpressionParser.nextToken s
        let r := ExpressionParser.parseRun env fuel ParseMode.expr s1
        let s2 := if r.2.curr.type = TokenType.RParen then ExpressionParser.nextToken r.2
          else r.2
        (r.1, s2)
      else if s.curr.type = TokenType.LBracket then
        let s1 := ExpressionParser.nextToken s
        let r := ExpressionParser.parseRun env fuel ParseMode.expr s1
        let s2 := if r.2.curr.type = TokenType.RBracket then ExpressionParser.nextToken r.2
          else r.2
        (ExpressionParser.readMemory env r.1, s2)
      else if s.curr.type = TokenType.Minus then
        let r := ExpressionParser.parseRun env fuel ParseMode.factor
          (ExpressionParser.nextToken s)
        (u64neg r.1, r.2)
      else if s.curr.type = TokenType.Plus then
        ExpressionParser.parseRun env fuel ParseMode.factor (ExpressionParser.nextToken s)
      else (0, s)

/-- ExpressionParser::Parse driven from the constructor
(src/src/debugger/expression_parser.cpp lines 13-20): prime the first token,
then run ParseExpr.  The fuel bound is generous for the input length. -/
def ExpressionParser.eval (env : ParserEnv) (expr : List Char) : Nat :=
  let s0 := ExpressionParser.nextToken
    { expr := expr, pos := 0, curr := { type := TokenType.End } }
  (ExpressionParser.parseRun env (4 * expr.length + 16) ParseMode.expr s0).1

/-- C2 counterexample: evaluating "5 / 0" yields 5, the left operand, not 0
as the claim states (the source skips the division when the divisor is
zero, leaving the running value). -/
theorem eval_div_by_zero_counterexample :
    ExpressionParser.eval ⟨none, none⟩ ['5', ' ', '/', ' ', '0'] = 5 ∧ (5 : Nat) ≠ 0 := by
  exact ⟨rfl, by decide⟩

lemma nextToken_at_end (s : PState) (hend : s.expr.length ≤ s.pos) :
    ExpressionParser.nextToken s = { s with curr := { type := TokenType.End } } := by
  have hdrop : s.expr.drop s.pos = [] := List.drop_eq_nil_of_le hend
  unfold ExpressionParser.nextToken
  rw [hdrop]
  simp only [countLeadingSpaces, Nat.add_zero]
  rw [if_pos hend]

lemma nextToken_space_zero (s : PState) (hrest : s.expr.drop s.pos = [' ', '0']) :
    ExpressionParser.nextToken s =
      { s with pos := s.pos + 2, curr := { type := TokenType.Number, value := 0 } } := by
  have hlen : s.expr.length = s.pos + 2 := by
    have hl := congrArg List.length hrest
    rw [List.length_drop] at hl
    simp at hl
    omega
  have hget1 : s.expr.getD (s.pos + 1) ' ' = '0' := by
    have h0 : (s.expr.drop s.pos).getD 1 ' ' = '0' := by
      rw [hrest]
      rfl
    rw [List.getD_eq_getElem?_getD, List.getElem?_drop] at h0
    rw [List.getD_eq_getElem?_getD]
    exact h0
  have hdrop2 : s.expr.drop (s.pos + 1) = ['0'] := by
    have h1 : (s.expr.drop s.pos).drop 1 = ['0'] := by
      rw [hrest]
      rfl
    rw [List.drop_drop] at h1
    exact h1
  have hcount : countLeadingSpaces (s.expr.drop s.pos) = 1 := by
    rw [hrest]
    rfl
  have hnotend : ¬ (s.expr.length ≤ s.pos + 1) := by omega
  have h3 : ¬ (s.pos + 1 + 2 ≤ s.expr.length) := by omega
  unfold ExpressionParser.nextToken
  rw [hcount]
  rw [if_neg hnotend]
  rw [hget1]
  rw [if_pos (show cIsDigit '0' = true by decide)]
  rw [show (decide (s.pos + 1 + 2 ≤ s.expr.length) && decide (('0' : Char) = '0') &&
      (decide (s.expr.getD (s.pos + 1 + 1) ' ' = 'x') ||
       decide (s.expr.getD (s.pos + 1 + 1) ' ' = 'X'))) = false by simp [h3]]
  rw [if_neg (show ¬ (false = true) by decide)]
  rw [hdrop2]
  rfl

lemma parseTermLoop_not_op (env : ParserEnv) (fuel v : Nat) (s : PState)
    (h1 : s.curr.type ≠ TokenType.Multiply) (h2 : s.curr.type ≠ TokenType.Divide) :
    ExpressionParser.parseRun env fuel (ParseMode.termLoop v) s = (v, s) := by
  have hcond : ¬ (s.curr.type = TokenType.Multiply ∨ s.curr.type = TokenType.Divide) := by
    intro hc
    rcases hc with h | h
    · exact h1 h
    · exact h2 h
  cases fuel with
  | zero => rfl
  | succ f =>
    unfold ExpressionParser.parseRun
    dsimp only
    rw [if_neg hcond]

lemma parseFactor_number (env : ParserEnv) (f : Nat) (s : PState)
    (hn : s.curr.type = TokenType.Number) :
    ExpressionParser.parseRun env (f + 1) ParseMode.factor s =
      (s.curr.value, ExpressionParser.nextToken s) := by
  unfold ExpressionParser.parseRun
  dsimp only
  rw [if_pos hn]

/-- C2 (amended): in ParseTerm, a division whose right operand evaluates to
zero leaves the running value unchanged — for every left operand x, parsing
the remaining input "/ 0" of a term yields x (not 0) — and evaluation never
signals an error (the evaluator is a total function into values). -/
theorem parse_term_div_by_zero_keeps_left (env : ParserEnv) (x : Nat) (s : PState)
    (fuel : Nat) (hfuel : 1 ≤ fuel) (hcurr : s.curr.type = TokenType.Divide)
    (hrest : s.expr.drop s.pos = [' ', '0']) :
    (ExpressionParser.parseRun env fuel (ParseMode.termLoop x) s).1 = x := by
  obtain ⟨f, rfl⟩ : ∃ f, fuel = f + 1 := ⟨fuel - 1, by omega⟩
  have hlen : s.expr.length = s.pos + 2 := by
    have hl := congrArg List.length hrest
    rw [List.length_drop] at hl
    simp at hl
    omega
  have hnext := nextToken_space_zero s hrest
  unfold ExpressionParser.parseRun
  dsimp only
  rw [if_pos (Or.inr hcurr)]
  rw [hcurr, hnext]
  cases f with
  | zero => rfl
  | succ f2 =>
    rw [parseFactor_number env f2
      { s with pos := s.pos + 2, curr := { type := TokenType.Number, value := 0 } } rfl]
    rw [nextToken_at_end
      { s with pos := s.pos + 2, curr := ({ type := TokenType.Number, value := 0 } : Token) }
      (by simp [hlen])]
    rw [if_neg (show ¬ (TokenType.Divide = TokenType.Multiply) by decide)]
    rw [if_neg (show ¬ ((0 : Nat) ≠ 0) by decide)]
    rw [parseTermLoop_not_op env (f2 + 1) x _
      (by intro h; exact TokenType.noConfusion h)
      (by intro h; exact TokenType.noConfusion h)]

/-- Concrete parser state used by the C2 witness: the state of "5 / 0" right
after the division token has been read. -/
def divWitnessState : PState :=
  { expr := ['5', ' ', '/', ' ', '0'], pos := 3, curr := { type := TokenType.Divide } }

/-- Witness for C2's amended theorem at a concrete input: the term loop on
"/ 0" with running value 5 returns 5. -/
theorem parse_term_div_by_zero_keeps_left_witness :
    (ExpressionParser.parseRun ⟨none, none⟩ 5 (ParseMode.termLoop 5) divWitnessState).1
      = 5 := by
  exact parse_term_div_by_zero_keeps_left ⟨none, none⟩ 5 divWitnessState 5
    (by omega) rfl rfl
